import Mathlib

/-!
Verification of the `wrapped-list` crate (`src/lib.rs`).

The crate exports three declarative macros:

  wrapped_list![$wrapper:path ; $($e:expr),* $(,)?]  => [$($wrapper($e)),*]
  wrapped_list![$wrapper:ident! ; $($e:expr),* $(,)?] => [$($wrapper!($e)),*]
  wrapped_vec!  — same two rules, emitting vec![$($wrapper($e)),*]
  wrapped_tuple! — same two rules, emitting ($($wrapper($e)),*)

We give a shallow embedding of the expansion.  Argument expressions and the
expanded code are syntax trees (`Syn`); the wrapper token before the `;` is a
`WrapperTok` recording which syntactic shape it has; the trailing-comma marker
`$(,)?` is a `Bool` flag; a macro either matches (producing an `Output`, the
emitted collection literal) or fails to match (`none`, a compile-time error).
A small evaluator `evalT` interprets expanded code, additionally logging every
call through a path wrapper (in evaluation order) so that evaluation order and
invocation counts are observable.
-/

/-- Expressions / expanded code fragments.  `lit n` is an integer literal,
`add a b` is `a + b`, `callPath p e` is a call `p(e)` through a path such as
`Wrapper` or `ComplexWrapper::new`, and `callBang m e` is an invocation
`m!(e)` of a user declarative unary expansion named `m`. -/
inductive Syn where
  | lit (n : Int)
  | add (a b : Syn)
  | callPath (p : List String) (arg : Syn)
  | callBang (m : String) (arg : Syn)
deriving DecidableEq, Repr

/-- The wrapper token appearing before the `;` in an invocation.
`path p` is a (possibly multi-segment) path, matched by `$wrapper:path`;
`identBang m` is a simple name followed by `!`, matched by `$wrapper:ident !`;
`pathBang segs` is a multi-segment path followed by `!`, and `literal s` a
literal token — these last two match neither rule of the source macros. -/
inductive WrapperTok where
  | path (p : List String)
  | identBang (m : String)
  | pathBang (segs : List String)
  | literal (s : String)
deriving DecidableEq, Repr

/-- The emitted collection literal: `arr es` is `[e1, ..., en]`,
`vecLit es` is `vec![e1, ..., en]`, `tup es` is `(e1, ..., en)`. -/
inductive Output where
  | arr (es : List Syn)
  | vecLit (es : List Syn)
  | tup (es : List Syn)
deriving DecidableEq, Repr

/-- The element list of an emitted collection literal. -/
def elemsOf : Output → List Syn
  | Output.arr es => es
  | Output.vecLit es => es
  | Output.tup es => es

/-- One wrapped element: `$wrapper($e)` for the path rule, `$wrapper!($e)` for
the ident-with-`!` rule.  The last two wrapper kinds match no rule, so the
value returned for them is never emitted by the macros below. -/
def wrapAs : WrapperTok → Syn → Syn
  | WrapperTok.path p, e => Syn.callPath p e
  | WrapperTok.identBang m, e => Syn.callBang m e
  | WrapperTok.pathBang _, e => e
  | WrapperTok.literal _, e => e

/-- `wrapped_list!` from src/lib.rs (lines 77–84).  The first rule matches a
path wrapper, the second a simple name followed by `!`; both accept any number
of comma-separated argument expressions (`$($e:expr),*`, zero or more) and an
optional trailing comma (`$(,)?`, the `Bool` argument), and emit the array
literal of the wrapped elements.  Any other wrapper token matches no rule. -/
def wrapped_list : WrapperTok → List Syn → Bool → Option Output
  | WrapperTok.path p, es, _ => some (Output.arr (es.map (Syn.callPath p)))
  | WrapperTok.identBang m, es, _ => some (Output.arr (es.map (Syn.callBang m)))
  | _, _, _ => none

/-- `wrapped_vec!` from src/lib.rs (lines 88–95): identical matching, emitting
`vec![...]` instead of an array literal. -/
def wrapped_vec : WrapperTok → List Syn → Bool → Option Output
  | WrapperTok.path p, es, _ => some (Output.vecLit (es.map (Syn.callPath p)))
  | WrapperTok.identBang m, es, _ => some (Output.vecLit (es.map (Syn.callBang m)))
  | _, _, _ => none

/-- `wrapped_tuple!` from src/lib.rs (lines 99–106): identical matching,
emitting the parenthesized tuple `( ... )` instead of an array literal. -/
def wrapped_tuple : WrapperTok → List Syn → Bool → Option Output
  | WrapperTok.path p, es, _ => some (Output.tup (es.map (Syn.callPath p)))
  | WrapperTok.identBang m, es, _ => some (Output.tup (es.map (Syn.callBang m)))
  | _, _, _ => none

/-- Run-time values of the expanded code in the scenarios: integers and values
`Wrapper(n)` of the tuple struct `Wrapper(i32)` from the crate's tests. -/
inductive Value where
  | int (n : Int)
  | wrapper (n : Int)
deriving DecidableEq, Repr

/-- Addition on values; in the scenarios only integers are added. -/
def addV : Value → Value → Value
  | Value.int a, Value.int b => Value.int (a + b)
  | a, _ => a

/-- Evaluation of expanded code under an interpretation `env` of paths as
unary functions on values.  The second component is the trace: every call
through a path, recorded as (path, argument value) in evaluation order.
A `callBang` node is an unexpanded invocation with no run-time semantics of
its own; claims only evaluate fully expanded code, where it does not occur. -/
def evalT (env : List String → Value → Value) : Syn → Value × List (List String × Value)
  | Syn.lit n => (Value.int n, [])
  | Syn.add a b =>
      let ra := evalT env a
      let rb := evalT env b
      (addV ra.1 rb.1, ra.2 ++ rb.2)
  | Syn.callPath p e =>
      let r := evalT env e
      (env p r.1, r.2 ++ [(p, r.1)])
  | Syn.callBang _ e =>
      evalT env e

/-- Left-to-right evaluation of the elements of a collection literal (Rust
evaluates array, `vec!` and tuple elements in source order): the list of
element values, and the concatenated trace. -/
def evalList (env : List String → Value → Value) :
    List Syn → List Value × List (List String × Value)
  | [] => ([], [])
  | e :: es =>
      let r := evalT env e
      let rest := evalList env es
      (r.1 :: rest.1, r.2 ++ rest.2)

/-- Number of applications of the given wrapper occurring in a fragment. -/
def occWrap (w : WrapperTok) : Syn → Nat
  | Syn.lit _ => 0
  | Syn.add a b => occWrap w a + occWrap w b
  | Syn.callPath p e => (if w = WrapperTok.path p then 1 else 0) + occWrap w e
  | Syn.callBang m e => (if w = WrapperTok.identBang m then 1 else 0) + occWrap w e

/-- Value of an emitted tuple literal `(e1, ..., en)`.  With one element the
literal `(e)` is just a parenthesized expression — its value is the bare value
of `e`, not a one-element tuple — and with zero elements it is the unit value.
-/
inductive TValue where
  | unitV
  | single (v : Value)
  | tupleV (vs : List Value)
deriving DecidableEq, Repr

/-- Evaluate a tuple literal's element list to its `TValue`. -/
def tupleVal (env : List String → Value → Value) : List Syn → TValue
  | [] => TValue.unitV
  | [e] => TValue.single (evalT env e).1
  | es => TValue.tupleV (es.map fun e => (evalT env e).1)

/-- The unary expansion `add_one` from the crate docs and tests:
`add_one!($e)` expands to `$e + 1`. -/
def add_one (e : Syn) : Syn := Syn.add e (Syn.lit 1)

/-- The unary expansion `wrapper_macro2` from the tests (src/lib.rs lines
147–151): `wrapper_macro2!($e)` expands to `Wrapper(add_one!($e))`. -/
def wrapper_macro2 (e : Syn) : Syn :=
  Syn.callPath ["Wrapper"] (Syn.callBang "add_one" e)

/-- One outside-in pass of user expansion, resolving the two unary expansions
declared in the tests by their definitions above; fully expanding
`wrapper_macro2!` takes two passes, since its body invokes `add_one!`. -/
def expandUser : Syn → Syn
  | Syn.lit n => Syn.lit n
  | Syn.add a b => Syn.add (expandUser a) (expandUser b)
  | Syn.callPath p e => Syn.callPath p (expandUser e)
  | Syn.callBang m e =>
      if m = "add_one" then add_one (expandUser e)
      else if m = "wrapper_macro2" then wrapper_macro2 (expandUser e)
      else Syn.callBang m (expandUser e)

/-- Interpretation of the callable wrappers used in the scenarios: `Wrapper`
is the test tuple-struct constructor, `increment` an increment-by-one
function. -/
def testEnv : List String → Value → Value
  | ["Wrapper"], Value.int n => Value.wrapper n
  | ["increment"], Value.int n => Value.int (n + 1)
  | _, v => v

/-- Helper: evaluating the array of path-wrapped elements yields, per input
expression, the wrapper applied to its value, and the trace is the in-order
concatenation of each argument's own trace followed by its wrapper call. -/
lemma evalList_map_callPath (env : List String → Value → Value)
    (p : List String) (es : List Syn) :
    evalList env (es.map (Syn.callPath p))
      = (es.map fun e => env p (evalT env e).1,
         (es.map fun e => (evalT env e).2 ++ [(p, (evalT env e).1)]).flatten) := by
  induction es with
  | nil => rfl
  | cons e es ih => simp [evalList, evalT, ih]

/-- C1: for every arity and both wrapper kinds, `wrapped_list` produces the
ordered sequence whose i-th element is the wrapper applied to the i-th
argument; for a path wrapper, evaluating that sequence applies the wrapper to
each argument's value independently, in left-to-right input order, as the
evaluation trace shows. -/
theorem wrapped_list_elementwise (env : List String → Value → Value)
    (w : WrapperTok) (es : List Syn) (t : Bool) (out : Output)
    (hm : wrapped_list w es t = some out) :
    elemsOf out = es.map (wrapAs w) ∧
    ∀ p, w = WrapperTok.path p →
      evalList env (elemsOf out)
        = (es.map fun e => env p (evalT env e).1,
           (es.map fun e => (evalT env e).2 ++ [(p, (evalT env e).1)]).flatten) := by
  cases w with
  | path p =>
      injection hm with h
      subst h
      refine ⟨rfl, ?_⟩
      intro q hq
      injection hq with hpq
      subst hpq
      exact evalList_map_callPath env p es
  | identBang m =>
      injection hm with h
      subst h
      exact ⟨rfl, fun q hq => by cases hq⟩
  | pathBang s => cases hm
  | literal s => cases hm

/-- Witness for C1 at wrapper `Wrapper` and arguments `1, 2`. -/
theorem wrapped_list_elementwise_witness :
    elemsOf (Output.arr [Syn.callPath ["Wrapper"] (Syn.lit 1),
                         Syn.callPath ["Wrapper"] (Syn.lit 2)])
      = [Syn.lit 1, Syn.lit 2].map (wrapAs (WrapperTok.path ["Wrapper"])) ∧
    ∀ p, WrapperTok.path ["Wrapper"] = WrapperTok.path p →
      evalList testEnv (elemsOf (Output.arr [Syn.callPath ["Wrapper"] (Syn.lit 1),
                                             Syn.callPath ["Wrapper"] (Syn.lit 2)]))
        = ([Syn.lit 1, Syn.lit 2].map fun e => testEnv p (evalT testEnv e).1,
           ([Syn.lit 1, Syn.lit 2].map fun e =>
              (evalT testEnv e).2 ++ [(p, (evalT testEnv e).1)]).flatten) :=
  wrapped_list_elementwise testEnv (WrapperTok.path ["Wrapper"])
    [Syn.lit 1, Syn.lit 2] false
    (Output.arr [Syn.callPath ["Wrapper"] (Syn.lit 1),
                 Syn.callPath ["Wrapper"] (Syn.lit 2)]) rfl

/-- C2, counterexample: a zero-argument invocation does match — the argument
repetition in every rule is zero-or-more — and produces empty output for each
of the three shapes, contrary to the claim that it fails to match. -/
theorem zero_arity_matches_counterexample :
    wrapped_list (WrapperTok.path ["Wrapper"]) [] false = some (Output.arr []) ∧
    wrapped_vec (WrapperTok.path ["Wrapper"]) [] false = some (Output.vecLit []) ∧
    wrapped_tuple (WrapperTok.path ["Wrapper"]) [] false = some (Output.tup []) :=
  ⟨rfl, rfl, rfl⟩

/-- C2, amended: for both wrapper kinds and every shape, a zero-argument
invocation (with or without a lone trailing comma) matches at compile time and
expands to the empty collection: `[]`, `vec![]`, and `()` respectively. -/
theorem zero_arity_matches : ∀ (p : List String) (m : String) (t : Bool),
    wrapped_list (WrapperTok.path p) [] t = some (Output.arr []) ∧
    wrapped_vec (WrapperTok.path p) [] t = some (Output.vecLit []) ∧
    wrapped_tuple (WrapperTok.path p) [] t = some (Output.tup []) ∧
    wrapped_list (WrapperTok.identBang m) [] t = some (Output.arr []) ∧
    wrapped_vec (WrapperTok.identBang m) [] t = some (Output.vecLit []) ∧
    wrapped_tuple (WrapperTok.identBang m) [] t = some (Output.tup []) :=
  fun _ _ _ => ⟨rfl, rfl, rfl, rfl, rfl, rfl⟩

/-- C3: for the same wrapper and arguments the three shapes either all fail to
match or all match, with identical element lists in identical order; the
dynamic and tuple shapes are exactly the fixed shape with the container
constructor swapped, so the per-element wrapper application never diverges. -/
theorem cross_shape_consistent (w : WrapperTok) (es : List Syn) (t : Bool) :
    wrapped_vec w es t = (wrapped_list w es t).map (fun o => Output.vecLit (elemsOf o)) ∧
    wrapped_tuple w es t = (wrapped_list w es t).map (fun o => Output.tup (elemsOf o)) ∧
    (wrapped_vec w es t).map elemsOf = (wrapped_list w es t).map elemsOf ∧
    (wrapped_tuple w es t).map elemsOf = (wrapped_list w es t).map elemsOf := by
  cases w <;> exact ⟨rfl, rfl, rfl, rfl⟩

/-- Helper: wrapping each element with a matched wrapper adds exactly one
occurrence of that wrapper per element. -/
lemma sum_occ_map_wrap (w : WrapperTok) (es : List Syn)
    (hw : (∃ p, w = WrapperTok.path p) ∨ ∃ m, w = WrapperTok.identBang m) :
    ((es.map (wrapAs w)).map (occWrap w)).sum
      = es.length + (es.map (occWrap w)).sum := by
  induction es with
  | nil => simp
  | cons e es ih =>
      have h1 : occWrap w (wrapAs w e) = 1 + occWrap w e := by
        rcases hw with ⟨p, hp⟩ | ⟨m, hm⟩ <;> subst_vars <;> simp [wrapAs, occWrap]
      simp only [List.map_cons, List.sum_cons, h1, ih, List.length_cons]
      omega

/-- C4: whenever `wrapped_list` matches, the output has exactly as many
elements as there are arguments, element i of the output is the wrapper
applied to argument i, and the total number of wrapper applications occurring
in the output exceeds the number already occurring inside the arguments by
exactly n — the wrapper is applied exactly once per argument. -/
theorem wrapper_applied_once_per_arg (w : WrapperTok) (es : List Syn) (t : Bool)
    (out : Output) (hm : wrapped_list w es t = some out) :
    (elemsOf out).length = es.length ∧
    (∀ i : Nat, (elemsOf out)[i]? = (es[i]?).map (wrapAs w)) ∧
    ((elemsOf out).map (occWrap w)).sum = es.length + (es.map (occWrap w)).sum := by
  have hshape : elemsOf out = es.map (wrapAs w) ∧
      ((∃ p, w = WrapperTok.path p) ∨ ∃ m, w = WrapperTok.identBang m) := by
    cases w with
    | path p => injection hm with h; subst h; exact ⟨rfl, Or.inl ⟨p, rfl⟩⟩
    | identBang m => injection hm with h; subst h; exact ⟨rfl, Or.inr ⟨m, rfl⟩⟩
    | pathBang s => cases hm
    | literal s => cases hm
  obtain ⟨helems, hw⟩ := hshape
  rw [helems]
  refine ⟨List.length_map es (wrapAs w), ?_, sum_occ_map_wrap w es hw⟩
  intro i
  exact List.getElem?_map (wrapAs w) es i

/-- Witness for C4 at wrapper `Wrapper` and arguments `1, 2, 3`. -/
theorem wrapper_applied_once_per_arg_witness :
    (elemsOf (Output.arr ([Syn.lit 1, Syn.lit 2, Syn.lit 3].map
        (Syn.callPath ["Wrapper"])))).length = [Syn.lit 1, Syn.lit 2, Syn.lit 3].length ∧
    (∀ i : Nat, (elemsOf (Output.arr ([Syn.lit 1, Syn.lit 2, Syn.lit 3].map
        (Syn.callPath ["Wrapper"]))))[i]?
      = (([Syn.lit 1, Syn.lit 2, Syn.lit 3])[i]?).map
          (wrapAs (WrapperTok.path ["Wrapper"]))) ∧
    ((elemsOf (Output.arr ([Syn.lit 1, Syn.lit 2, Syn.lit 3].map
        (Syn.callPath ["Wrapper"])))).map (occWrap (WrapperTok.path ["Wrapper"]))).sum
      = [Syn.lit 1, Syn.lit 2, Syn.lit 3].length
        + ([Syn.lit 1, Syn.lit 2, Syn.lit 3].map
            (occWrap (WrapperTok.path ["Wrapper"]))).sum :=
  wrapper_applied_once_per_arg (WrapperTok.path ["Wrapper"])
    [Syn.lit 1, Syn.lit 2, Syn.lit 3] false
    (Output.arr ([Syn.lit 1, Syn.lit 2, Syn.lit 3].map (Syn.callPath ["Wrapper"]))) rfl

/-- C5: the trailing-comma marker never changes the expansion — for every
wrapper, every argument list and every shape, the invocation with a trailing
comma produces exactly the output of the invocation without it. -/
theorem trailing_comma_id (w : WrapperTok) (es : List Syn) :
    wrapped_list w es true = wrapped_list w es false ∧
    wrapped_vec w es true = wrapped_vec w es false ∧
    wrapped_tuple w es true = wrapped_tuple w es false := by
  cases w <;> exact ⟨rfl, rfl, rfl⟩

/-- C6: with exactly one argument, `wrapped_tuple` expands to the
parenthesized single wrapped element `(wrapper(e))`, whose value is the bare
value of `wrapper(e)` itself — not a one-element tuple — while `wrapped_list`
and `wrapped_vec` produce one-element collections of the same element. -/
theorem tuple_single_is_bare (env : List String → Value → Value)
    (w : WrapperTok) (e : Syn) (t : Bool) (out : Output)
    (hm : wrapped_tuple w [e] t = some out) :
    out = Output.tup [wrapAs w e] ∧
    tupleVal env (elemsOf out) = TValue.single (evalT env (wrapAs w e)).1 ∧
    (∀ vs, tupleVal env (elemsOf out) ≠ TValue.tupleV vs) ∧
    wrapped_list w [e] t = some (Output.arr [wrapAs w e]) ∧
    wrapped_vec w [e] t = some (Output.vecLit [wrapAs w e]) := by
  cases w with
  | path p =>
      injection hm with h
      subst h
      exact ⟨rfl, rfl, (fun vs h => by cases h), rfl, rfl⟩
  | identBang m =>
      injection hm with h
      subst h
      exact ⟨rfl, rfl, (fun vs h => by cases h), rfl, rfl⟩
  | pathBang s => cases hm
  | literal s => cases hm

/-- Witness for C6 at wrapper `Wrapper` and argument `5`. -/
theorem tuple_single_is_bare_witness :
    Output.tup [Syn.callPath ["Wrapper"] (Syn.lit 5)]
      = Output.tup [wrapAs (WrapperTok.path ["Wrapper"]) (Syn.lit 5)] ∧
    tupleVal testEnv (elemsOf (Output.tup [Syn.callPath ["Wrapper"] (Syn.lit 5)]))
      = TValue.single (evalT testEnv (wrapAs (WrapperTok.path ["Wrapper"]) (Syn.lit 5))).1 ∧
    (∀ vs, tupleVal testEnv (elemsOf (Output.tup [Syn.callPath ["Wrapper"] (Syn.lit 5)]))
        ≠ TValue.tupleV vs) ∧
    wrapped_list (WrapperTok.path ["Wrapper"]) [Syn.lit 5] false
      = some (Output.arr [wrapAs (WrapperTok.path ["Wrapper"]) (Syn.lit 5)]) ∧
    wrapped_vec (WrapperTok.path ["Wrapper"]) [Syn.lit 5] false
      = some (Output.vecLit [wrapAs (WrapperTok.path ["Wrapper"]) (Syn.lit 5)]) :=
  tuple_single_is_bare testEnv (WrapperTok.path ["Wrapper"]) (Syn.lit 5) false
    (Output.tup [Syn.callPath ["Wrapper"] (Syn.lit 5)]) rfl

/-- C7: a wrapper token that is neither a path nor a simple name followed by
`!` — e.g. a literal, or a `!` attached to a multi-segment path — matches no
rule of any of the three macros: the invocation fails at compile time and no
output is produced. -/
theorem unmatched_wrapper_rejected (w : WrapperTok) (es : List Syn) (t : Bool)
    (hp : ∀ p, w ≠ WrapperTok.path p) (hi : ∀ m, w ≠ WrapperTok.identBang m) :
    wrapped_list w es t = none ∧ wrapped_vec w es t = none ∧
    wrapped_tuple w es t = none := by
  cases w with
  | path p => exact absurd rfl (hp p)
  | identBang m => exact absurd rfl (hi m)
  | pathBang s => exact ⟨rfl, rfl, rfl⟩
  | literal s => exact ⟨rfl, rfl, rfl⟩

/-- Witness for C7 at the literal wrapper token `5` and argument `1`. -/
theorem unmatched_wrapper_rejected_witness :
    wrapped_list (WrapperTok.literal "5") [Syn.lit 1] false = none ∧
    wrapped_vec (WrapperTok.literal "5") [Syn.lit 1] false = none ∧
    wrapped_tuple (WrapperTok.literal "5") [Syn.lit 1] false = none :=
  unmatched_wrapper_rejected (WrapperTok.literal "5") [Syn.lit 1] false
    (fun p h => by cases h) (fun m h => by cases h)

/-- C8: with the increment-by-one function as wrapper and arguments
`1, 2, 3, 4`, `wrapped_list` expands to
`[increment(1), increment(2), increment(3), increment(4)]`, which evaluates to
the sequence `[2, 3, 4, 5]`. -/
theorem scenario_increment :
    wrapped_list (WrapperTok.path ["increment"])
        [Syn.lit 1, Syn.lit 2, Syn.lit 3, Syn.lit 4] false
      = some (Output.arr [Syn.callPath ["increment"] (Syn.lit 1),
                          Syn.callPath ["increment"] (Syn.lit 2),
                          Syn.callPath ["increment"] (Syn.lit 3),
                          Syn.callPath ["increment"] (Syn.lit 4)]) ∧
    (evalList testEnv [Syn.callPath ["increment"] (Syn.lit 1),
                       Syn.callPath ["increment"] (Syn.lit 2),
                       Syn.callPath ["increment"] (Syn.lit 3),
                       Syn.callPath ["increment"] (Syn.lit 4)]).1
      = [Value.int 2, Value.int 3, Value.int 4, Value.int 5] := by
  exact ⟨rfl, by decide⟩

/-- C9: with the macro-kind wrapper `wrapper_macro2!` (which expands to
`Wrapper(add_one!($e))`) and arguments `1, 2, 3`, `wrapped_list` matches its
second rule and expands to
`[wrapper_macro2!(1), wrapper_macro2!(2), wrapper_macro2!(3)]`; after the user
expansions are resolved (two passes), the elements evaluate to
`[Wrapper(2), Wrapper(3), Wrapper(4)]`. -/
theorem scenario_wrapper_macro2 :
    wrapped_list (WrapperTok.identBang "wrapper_macro2")
        [Syn.lit 1, Syn.lit 2, Syn.lit 3] false
      = some (Output.arr [Syn.callBang "wrapper_macro2" (Syn.lit 1),
                          Syn.callBang "wrapper_macro2" (Syn.lit 2),
                          Syn.callBang "wrapper_macro2" (Syn.lit 3)]) ∧
    ([Syn.callBang "wrapper_macro2" (Syn.lit 1),
      Syn.callBang "wrapper_macro2" (Syn.lit 2),
      Syn.callBang "wrapper_macro2" (Syn.lit 3)].map
        fun s => (evalT testEnv (expandUser (expandUser s))).1)
      = [Value.wrapper 2, Value.wrapper 3, Value.wrapper 4] := by
  exact ⟨rfl, by decide⟩

/-- C10: expansion always terminates — the embedded expansion functions are
total — and on every syntactically valid input (either wrapper kind, any
finite argument list, with or without trailing comma) each of the three
macros produces an output. -/
theorem expansion_total (p : List String) (m : String) (es : List Syn) (t : Bool) :
    (wrapped_list (WrapperTok.path p) es t).isSome = true ∧
    (wrapped_vec (WrapperTok.path p) es t).isSome = true ∧
    (wrapped_tuple (WrapperTok.path p) es t).isSome = true ∧
    (wrapped_list (WrapperTok.identBang m) es t).isSome = true ∧
    (wrapped_vec (WrapperTok.identBang m) es t).isSome = true ∧
    (wrapped_tuple (WrapperTok.identBang m) es t).isSome = true :=
  ⟨rfl, rfl, rfl, rfl, rfl, rfl⟩
